import Mathlib

/-!
# mergetron: merge, review, complete

A shallow embedding of `main.go`.  The program sequences calls to the `git` command
line tool and keeps two pieces of session state: the file `.git/mergetron-branches`
and a branch called `savepoint` that lives inside git.

Everything the program cannot decide by itself (whether a process starts, what it
prints, how it exits, whether a file operation is allowed) is an oracle of the
environment `Env`, consulted on the current `State`.  The state records every process
that was started and every process that was waited for, so an oracle may depend on the
whole history.
-/

namespace Mergetron

/-! ## Data model -/

/-- Go `error` values that are not nil, identified by their message. -/
abbrev Error := String

/-- One use of `exec.Cmd.Start` or `exec.Cmd.Wait`: the argument vector of the process
and the error the call returned (`none` for nil). -/
structure Event where
  argv : List String
  err : Option Error
deriving DecidableEq, Repr

/-- The world as the program sees it.
* `cwd`: working directory of the process (`os.Chdir`);
* `files`: content of the files, by the path the program names them with; `none` means
  that the file does not exist.  The only path the program uses is the relative path
  `branchRecordPath`, and every file operation of a run comes after its `os.Chdir`, so
  a path stands for the file it names in the directory the workflow works in;
* `started`: every process started so far, oldest first, with the result of `Start`;
* `finished`: every process waited for so far, oldest first, with the result of `Wait`.

What git keeps for itself (branches, commits, remotes) is not a component: the program
learns of it through the results of the git processes only.  A git process does not
touch the files of this model. -/
structure State where
  cwd : String
  files : String → Option String
  started : List Event
  finished : List Event

/-- Values docopt stores in its result map (`interface{}`). -/
inductive ArgValue where
  | null : ArgValue
  | bool (b : Bool) : ArgValue
  | str (s : String) : ArgValue
  | strs (l : List String) : ArgValue
deriving DecidableEq, Repr

/-- The type `CmdArgs` of the source, `map[string]interface{}`. -/
abbrev CmdArgs := List (String × ArgValue)

/-- What `exec.Cmd.Wait` yields: its error and the two captured output streams. -/
structure WaitResult where
  err : Option Error
  stdout : String
  stderr : String
deriving DecidableEq, Repr

/-- The environment: the operating system, the git tool and the two helpers the
source file uses without defining them.
* `cleanWS`: helper applied to the usage texts; its definition is not in `main.go`;
* `docopt`: `docopt.Parse` on a usage text and an argument vector; `none` when the
  library ends the process by itself (usage error, help, version);
* `startProc`, `waitProc`: `exec.Cmd.Start` and `exec.Cmd.Wait` on an argument vector;
* `chdir`, `create`, `write`: `os.Chdir`, `os.Create` and `(*os.File).Write`;
* `remove`: `os.Remove` on a file that exists (on a missing file it always fails).

Every oracle reads the current state, which holds the history of the processes, so
the same command may succeed once and fail later. -/
structure Env where
  cleanWS : String → String
  docopt : String → List String → Option CmdArgs
  startProc : State → List String → Option Error
  waitProc : State → List String → WaitResult
  chdir : State → String → Option Error
  create : State → String → Option Error
  write : State → String → String → Option Error
  remove : State → String → Option Error

/-- A workflow step: it transforms the world and returns nil (`none`) or an error. -/
abbrev Step := State → Option Error × State

/-! ## Process runner -/

/-- The struct `command` of the source; `itself` is reduced to its argument vector. -/
structure command where
  itself : List String
  err : Option Error
  stdout : String
  stderr : String
deriving DecidableEq, Repr

/-- Source `buildCommand`. -/
def buildCommand (cmdName : String) (args : List String) : command :=
  { itself := cmdName :: args, err := none, stdout := "", stderr := "" }

/-- Source `(*command).start`. -/
def command.start (env : Env) (c : command) (s : State) : command × State :=
  let e := env.startProc s c.itself
  ({ c with err := e }, { s with started := s.started ++ [⟨c.itself, e⟩] })

/-- Source `(*command).wait`. -/
def command.wait (env : Env) (c : command) (s : State) : command × State :=
  let r := env.waitProc s c.itself
  ({ c with err := r.err, stdout := r.stdout, stderr := r.stderr },
   { s with finished := s.finished ++ [⟨c.itself, r.err⟩] })

/-- Source `(*command).run`: start, and wait only when the start went well. -/
def command.run (env : Env) (c : command) (s : State) : command × State :=
  let (c1, s1) := c.start env s
  match c1.err with
  | some _ => (c1, s1)
  | none => c1.wait env s1

/-- Source `startCommand`: the process is started and not waited for. -/
def startCommand (env : Env) (cmdName : String) (args : List String) (s : State) :
    command × State :=
  (buildCommand cmdName args).start env s

/-- Source `runCommand`. -/
def runCommand (env : Env) (cmdName : String) (args : List String) (s : State) :
    command × State :=
  (buildCommand cmdName args).run env s

/-- Source `git`: run `git args...` to completion (the echo of the command on the
console is not part of the state). -/
def git (env : Env) (args : List String) (s : State) : command × State :=
  (buildCommand "git" args).run env s

/-! ## Operating system calls -/

/-- Replace the content of one file. -/
def setFile (s : State) (path : String) (content : Option String) : State :=
  { s with files := fun p => if p = path then content else s.files p }

/-- Go `os.Chdir`. -/
def osChdir (env : Env) (dir : String) : Step := fun s =>
  match env.chdir s dir with
  | some e => (some e, s)
  | none => (none, { s with cwd := dir })

/-- Go `os.Create`: on success the file exists and is empty. -/
def osCreate (env : Env) (path : String) : Step := fun s =>
  match env.create s path with
  | some e => (some e, s)
  | none => (none, setFile s path (some ""))

/-- Go `(*os.File).Write` on the file opened at `path`: on success the data is appended;
a failed write is taken to write nothing. -/
def fileWrite (env : Env) (path : String) (data : String) : Step := fun s =>
  match env.write s path data with
  | some e => (some e, s)
  | none => (none, setFile s path (some (((s.files path).getD "") ++ data)))

/-- Go `os.Remove`: fails on a missing file, otherwise the environment decides; on
success the file is gone. -/
def osRemove (env : Env) (path : String) : Step := fun s =>
  match s.files path with
  | none => (some ("remove " ++ path ++ ": no such file or directory"), s)
  | some _ =>
    match env.remove s path with
    | some e => (some e, s)
    | none => (none, setFile s path none)

/-! ## Library functions -/

/-- Go `unicode.IsSpace`. -/
def isSpace (c : Char) : Bool :=
  let n := c.toNat
  (9 ≤ n ∧ n ≤ 13) ∨ n = 32 ∨ n = 0x85 ∨ n = 0xA0 ∨ n = 0x1680 ∨
    (0x2000 ≤ n ∧ n ≤ 0x200A) ∨ n = 0x2028 ∨ n = 0x2029 ∨ n = 0x202F ∨
    n = 0x205F ∨ n = 0x3000

/-- Go `strings.TrimSpace`. -/
def TrimSpace (str : String) : String :=
  String.mk ((str.data.dropWhile isSpace).reverse.dropWhile isSpace).reverse

/-- Digit `n` of Go's `hex` table, "0123456789abcdef". -/
def hexDigit (n : Nat) : Char :=
  if n < 10 then Char.ofNat (48 + n) else Char.ofNat (87 + n)

/-- How `encoding/json` writes one character of a string when HTML escaping is on (the
default of an `Encoder`). -/
def jsonEscape (c : Char) : List Char :=
  let n := c.toNat
  if n = 34 ∨ n = 92 then [Char.ofNat 92, c]
  else if n = 8 then [Char.ofNat 92, Char.ofNat 98]
  else if n = 12 then [Char.ofNat 92, Char.ofNat 102]
  else if n = 10 then [Char.ofNat 92, Char.ofNat 110]
  else if n = 13 then [Char.ofNat 92, Char.ofNat 114]
  else if n = 9 then [Char.ofNat 92, Char.ofNat 116]
  else if n < 32 ∨ n = 60 ∨ n = 62 ∨ n = 38 then
    [Char.ofNat 92, Char.ofNat 117, Char.ofNat 48, Char.ofNat 48,
      hexDigit (n / 16), hexDigit (n % 16)]
  else if n = 0x2028 ∨ n = 0x2029 then
    [Char.ofNat 92, Char.ofNat 117, Char.ofNat 50, Char.ofNat 48, Char.ofNat 50,
      hexDigit (n % 16)]
  else [c]

/-- The characters `encoding/json` writes for a Go string: the escaped characters
between two double quotes. -/
def jsonStringChars (str : String) : List Char :=
  Char.ofNat 34 :: (str.data.flatMap jsonEscape ++ [Char.ofNat 34])

/-- The elements of a JSON array after the first one, each behind its comma. -/
def jsonTail : List String → List Char
  | [] => []
  | x :: rest => ',' :: (jsonStringChars x ++ jsonTail rest)

/-- The elements of a JSON array, a comma before every element but the first one. -/
def jsonElems : List String → List Char
  | [] => []
  | x :: rest => jsonStringChars x ++ jsonTail rest

/-- JSON text of a `[]string` that is not nil: the elements in order, separated by
commas, between brackets.  (A nil slice, which docopt does not produce, is written as
`null` by the library.) -/
def jsonArray (l : List String) : String :=
  String.mk ('[' :: (jsonElems l ++ [']']))

/-- Value of a hexadecimal digit written by `hexDigit`. -/
def hexValue (c : Char) : Nat :=
  if c.toNat < 58 then c.toNat - 48 else c.toNat - 87

/-- Reads back one character written by `jsonEscape` from the front of a text; `none`
at the end of the text and at a double quote, which ends a string. -/
def jsonUnescape : List Char → Option (Char × List Char)
  | [] => none
  | c :: r =>
    if c.toNat = 34 then none
    else if c.toNat = 92 then
      match r with
      | [] => none
      | x :: r1 =>
        if x.toNat = 34 ∨ x.toNat = 92 then some (x, r1)
        else if x.toNat = 98 then some (Char.ofNat 8, r1)
        else if x.toNat = 102 then some (Char.ofNat 12, r1)
        else if x.toNat = 110 then some (Char.ofNat 10, r1)
        else if x.toNat = 114 then some (Char.ofNat 13, r1)
        else if x.toNat = 116 then some (Char.ofNat 9, r1)
        else
          match r1 with
          | h3 :: h2 :: h1 :: h0 :: r2 =>
            some (Char.ofNat (((hexValue h3 * 16 + hexValue h2) * 16 + hexValue h1) * 16
              + hexValue h0), r2)
          | _ => none
    else some (c, r)

/-- Go `(*json.Encoder).Encode` of a `[]string` into the file at `path`: the JSON text
followed by a newline goes out in one write, whose error is the result. -/
def Encode (env : Env) (path : String) (v : List String) : Step :=
  fileWrite env path (jsonArray v ++ "\n")

/-- A compiled regular expression, as far as `FindStringSubmatch` shows it: the number
of capture groups and, for a text, the leftmost match followed by the text of each group
(`[]`, the nil slice, when nothing matches). -/
structure Regexp where
  numSubexp : Nat
  FindStringSubmatch : String → List String

/-- Whether the characters `p` occur somewhere in the text `t`. -/
def occursIn (p : List Char) : List Char → Bool
  | [] => p.isEmpty
  | c :: t => p.isPrefixOf (c :: t) || occursIn p t

/-- Go `regexp.MustCompile` on a pattern without metacharacters, the empty pattern among
them: such a pattern has no capture group and matches its own text, so a match is the
pattern itself and there is one exactly when the pattern occurs in the text. -/
def MustCompile (pattern : String) : Regexp :=
  { numSubexp := 0
    FindStringSubmatch := fun text =>
      if occursIn pattern.data text.data then [pattern] else [] }

/-! ## Workflow steps -/

/-- Source `orFatal`, with the rest of the caller as continuation: an error that is not
nil ends the process there (`log.Fatal`), nil lets the caller go on. -/
def orFatal (step : Step) (next : Step) : Step := fun s =>
  match step s with
  | (some e, s1) => (some e, s1)
  | (none, s1) => next s1

/-- Source constant `branchRecordPath`. -/
def branchRecordPath : String := ".git/mergetron-branches"

/-- Source `cleanRecordedBranches`. -/
def cleanRecordedBranches (env : Env) : Step :=
  osRemove env branchRecordPath

/-- Source `deleteSavePoint`. -/
def deleteSavePoint (env : Env) : Step := fun s =>
  let (dsp, s1) := git env ["branch", "-d", "savepoint"] s
  (dsp.err, s1)

/-- Source `pushCurrent`. -/
def pushCurrent (env : Env) : Step := fun s =>
  let (pc, s1) := git env ["push", "-u"] s
  (pc.err, s1)

/-- Source `cleanBranches`: nothing is done. -/
def cleanBranches : Step := fun s => (none, s)

/-- Source `spawnDifftool`. -/
def spawnDifftool (env : Env) : Step := fun s =>
  let (difftool, s1) := startCommand env "git" ["difftool", "-d", "savepoint"] s
  (difftool.err, s1)

/-- Source `runQA`: logs that it is unimplemented and returns nil. -/
def runQA : Step := fun s => (none, s)

/-- Source `chDirRepoRoot`; the result of `os.Chdir` is dropped, as in the source. -/
def chDirRepoRoot (env : Env) : Step := fun s =>
  let (rptl, s1) := git env ["rev-parse", "--show-toplevel"] s
  match rptl.err with
  | some e => (some e, s1)
  | none =>
    let toplevelDir := TrimSpace rptl.stdout
    (none, (osChdir env toplevelDir s1).2)

/-- Source `makeSavepoint`. -/
def makeSavepoint (env : Env) : Step := fun s =>
  let (brsp, s1) := git env ["branch", "savepoint"] s
  (brsp.err, s1)

/-- Source `recordBranches`: only the error of `os.Create` is returned; the result of
`enc.Encode` is dropped, as in the source.  (The deferred `file.Close` has no effect
on the state.) -/
def recordBranches (env : Env) (branches : List String) : Step := fun s =>
  match osCreate env branchRecordPath s with
  | (some e, s1) => (some e, s1)
  | (none, s1) => (none, (Encode env branchRecordPath branches s1).2)

/-- Source variable `branchSplitRE`, compiled from the empty pattern. -/
def branchSplitRE : Regexp := MustCompile ""

/-- Source `splitBranchname`.  Reading `ms[1]` or `ms[2]` beyond the end of the slice is
a run-time panic of the process, reported here as an error as well. -/
def splitBranchname (name : String) : Except Error (String × String) :=
  let ms := branchSplitRE.FindStringSubmatch name
  if ms.length < 2 then
    .error ("Couldn't split " ++ name ++ " in remote and branchname")
  else
    match ms[1]?, ms[2]? with
    | some remote, some branch => .ok (remote, branch)
    | _, _ => .error "panic: runtime error: index out of range"

/-- The loop of `mergeBranches`: split, pull, stop at the first error. -/
def pullEach (env : Env) : List String → Step
  | [] => fun s => (none, s)
  | branch :: rest => fun s =>
    match splitBranchname branch with
    | .error e => (some e, s)
    | .ok (remote, br) =>
      let (pull, s1) := git env ["pull", remote, br] s
      match pull.err with
      | some e => (some e, s1)
      | none => pullEach env rest s1

/-- Source `mergeBranches`. -/
def mergeBranches (env : Env) (branches : List String) : Step := fun s =>
  if branches.length = 0 then
    (some "Need some origin/branches!", s)
  else
    pullEach env branches s

/-- The end of an action: it returns to `main` without an error. -/
def done : Step := fun s => (none, s)

/-- Source `merge`.  The type assertion on `args["<branches>"]` panics when the entry is
not a `[]string`; the panic ends the process and is reported as an error. -/
def merge (env : Env) (args : CmdArgs) : Step := fun s =>
  match args.lookup "<branches>" with
  | some (.strs branches) =>
    (orFatal (chDirRepoRoot env) <|
      orFatal (makeSavepoint env) <|
      orFatal (recordBranches env branches) <|
      orFatal (mergeBranches env branches) <|
      orFatal (spawnDifftool env) <|
      orFatal runQA done) s
  | _ => (some "panic: interface conversion: interface is not []string", s)

/-- Source `review`. -/
def review (env : Env) (_args : CmdArgs) : Step :=
  orFatal (chDirRepoRoot env) <|
    orFatal (spawnDifftool env) <|
    orFatal runQA done

/-- Source `complete`. -/
def complete (env : Env) (_args : CmdArgs) : Step :=
  orFatal (chDirRepoRoot env) <|
    orFatal (cleanRecordedBranches env) <|
    orFatal (deleteSavePoint env) <|
    orFatal (pushCurrent env) <|
    orFatal cleanBranches done

/-! ## Command dispatcher -/

/-- The functions of the source that have the type of an action, `func(CmdArgs)`. -/
inductive Action where
  | merge : Action
  | review : Action
  | complete : Action
deriving DecidableEq, Repr

/-- Calling an action. -/
def Action.call (env : Env) : Action → CmdArgs → Step
  | .merge => Mergetron.merge env
  | .review => Mergetron.review env
  | .complete => Mergetron.complete env

/-- Source struct `Cmd`. -/
structure Cmd where
  desc : String
  doc : String
  action : Action
deriving DecidableEq, Repr

/-- Source constant `doc`. -/
def doc : String :=
  "\nMerge pull requests, do review, run tests.\n\nUsage:\n  git-mergetron <subcommand> [<args>...]\n\nSubcommands:\n"

/-- Source variable `mergeDoc`. -/
def mergeDoc (env : Env) : String :=
  env.cleanWS "\n\tUsage:\n\t  git-mergetron merge <branches>...\n\t"

/-- Source variable `reviewDoc`. -/
def reviewDoc (env : Env) : String :=
  env.cleanWS "\n  Usage:\n\t  git-mergetron review\n"

/-- Source variable `completeDoc`. -/
def completeDoc (env : Env) : String :=
  env.cleanWS "\n  Useage:\n\t  git-mergetron complete\n"

/-- Source variable `subcommands`, the registry the dispatcher looks names up in. -/
def subcommands (env : Env) : List (String × Cmd) :=
  [("merge", ⟨"begin a manual merge of branches", mergeDoc env, .merge⟩)]

/-- Source `main`, on the arguments of the process.  A type assertion that fails is a
panic, reported as an error. -/
def main (env : Env) (osArgs : List String) : Step := fun s =>
  let sublist := (subcommands env).foldl
    (fun acc kv => acc ++ "\n  " ++ kv.1 ++ ":   " ++ kv.2.desc) ""
  match env.docopt (doc ++ sublist) osArgs with
  | none => (some "docopt: usage", s)
  | some args =>
    match args.lookup "<subcommand>" with
    | some (.str subcmd) =>
      match (subcommands env).lookup subcmd with
      | some cmd =>
        match args.lookup "<args>" with
        | some (.strs subargs) =>
          let argv := subcmd :: subargs
          match env.docopt cmd.doc argv with
          | none => (some "docopt: usage", s)
          | some parsed => cmd.action.call env parsed s
        | _ => (some "panic: interface conversion: interface is not []string", s)
      | none => (none, s)
    | _ => (some "panic: interface conversion: interface is not string", s)

/-! ## What the environment answers to a git command

The three definitions below are written from the oracles alone, not from the process
runner: they say how a git command ends according to the environment, and what the
history looks like after a command that ended well.  The theorems on `merge` and
`complete` are stated with them, so that they speak of the outcome of git itself. -/

/-- How `git args...` ends when run to completion in state `s`: the error of `Start`,
or else, the process being started, the error of `Wait` (`none` for exit status 0). -/
def gitOutcome (env : Env) (args : List String) (s : State) : Option Error :=
  match env.startProc s ("git" :: args) with
  | some e => some e
  | none =>
    (env.waitProc { s with started := s.started ++ [⟨"git" :: args, none⟩] }
      ("git" :: args)).err

/-- The history after `git args...` has been started and has ended without an error. -/
def afterGit (s : State) (args : List String) : State :=
  { s with
    started := s.started ++ [⟨"git" :: args, none⟩]
    finished := s.finished ++ [⟨"git" :: args, none⟩] }

/-- The state after a root lookup that ended well: the history holds the `rev-parse`,
and the working directory is the trimmed output of the command when the environment
allows the change of directory. -/
def afterRoot (env : Env) (s : State) : State :=
  let t := afterGit s ["rev-parse", "--show-toplevel"]
  let out := (env.waitProc
    { s with started := s.started ++ [⟨["git", "rev-parse", "--show-toplevel"], none⟩] }
    ["git", "rev-parse", "--show-toplevel"]).stdout
  match env.chdir t (TrimSpace out) with
  | some _ => t
  | none => { t with cwd := TrimSpace out }

/-! ## Sample inputs -/

/-- The map docopt returns for `merge b1 ... bn`. -/
def mergeArgs (branches : List String) : CmdArgs :=
  [("merge", .bool true), ("<branches>", .strs branches)]

/-- A fresh checkout: no session file, no process run yet. -/
def freshState : State :=
  { cwd := "/repo/src", files := fun _ => none, started := [], finished := [] }

/-- A checkout in which a session file is present. -/
def sessionState : State :=
  { cwd := "/repo", files := fun p => if p = branchRecordPath then some "[\"origin/a\"]\n" else none,
    started := [], finished := [] }

/-- A sample environment: every process starts; the git commands listed in `failing`
exit with status 1, the others with status 0, `rev-parse` printing the root; file
operations are allowed, except that a write fails when `diskFull` is set. -/
def sampleEnv (failing : List (List String)) (diskFull : Bool) : Env :=
  { cleanWS := fun t => t
    docopt := fun _ argv =>
      match argv with
      | "merge" :: b :: bs => some (mergeArgs (b :: bs))
      | _ => none
    startProc := fun _ _ => none
    waitProc := fun _ argv =>
      if argv ∈ failing then ⟨some "exit status 1", "", "fatal\n"⟩
      else if argv = ["git", "rev-parse", "--show-toplevel"] then ⟨none, "/repo\n", ""⟩
      else ⟨none, "", ""⟩
    chdir := fun _ _ => none
    create := fun _ _ => none
    write := fun _ _ _ => if diskFull then some "write: no space left on device" else none
    remove := fun _ _ => none }

/-! ## The process runner and the steps, one by one -/

theorem git_files (env : Env) (args : List String) (s : State) :
    (git env args s).2.files = s.files := by
  unfold git command.run command.start command.wait
  dsimp only
  split <;> rfl

theorem git_cwd (env : Env) (args : List String) (s : State) :
    (git env args s).2.cwd = s.cwd := by
  unfold git command.run command.start command.wait
  dsimp only
  split <;> rfl

theorem git_started (env : Env) (args : List String) (s : State) :
    (git env args s).2.started.map Event.argv =
      s.started.map Event.argv ++ ["git" :: args] := by
  unfold git command.run command.start command.wait
  dsimp only
  split <;> simp [buildCommand]

theorem git_ok (env : Env) (args : List String) (s : State)
    (h : (git env args s).1.err = none) :
    (git env args s).2.finished = s.finished ++ [⟨"git" :: args, none⟩] := by
  unfold git command.run command.start command.wait at h ⊢
  simp only [buildCommand] at h ⊢
  cases he : env.startProc s ("git" :: args) with
  | some e => simp [he] at h
  | none =>
    simp only [he] at h ⊢
    rw [h]

theorem chDirRepoRoot_files (env : Env) (s : State) :
    (chDirRepoRoot env s).2.files = s.files := by
  unfold chDirRepoRoot osChdir
  dsimp only
  split
  · exact git_files env _ s
  · split <;> exact git_files env _ s

theorem chDirRepoRoot_started (env : Env) (s : State) :
    (chDirRepoRoot env s).2.started.map Event.argv =
      s.started.map Event.argv ++ [["git", "rev-parse", "--show-toplevel"]] := by
  unfold chDirRepoRoot osChdir
  dsimp only
  split
  · exact git_started env _ s
  · split <;> exact git_started env _ s

theorem chDirRepoRoot_finished (env : Env) (s : State)
    (h : (chDirRepoRoot env s).1 = none) :
    (chDirRepoRoot env s).2.finished =
      s.finished ++ [⟨["git", "rev-parse", "--show-toplevel"], none⟩] := by
  unfold chDirRepoRoot osChdir at h ⊢
  dsimp only at h ⊢
  split at h
  · exact absurd h (by simp)
  · rename_i he
    simp only [he]
    split <;> exact git_ok env _ s he

theorem makeSavepoint_files (env : Env) (s : State) :
    (makeSavepoint env s).2.files = s.files :=
  git_files env _ s

theorem makeSavepoint_started (env : Env) (s : State) :
    (makeSavepoint env s).2.started.map Event.argv =
      s.started.map Event.argv ++ [["git", "branch", "savepoint"]] :=
  git_started env _ s

theorem makeSavepoint_finished (env : Env) (s : State)
    (h : (makeSavepoint env s).1 = none) :
    (makeSavepoint env s).2.finished =
      s.finished ++ [⟨["git", "branch", "savepoint"], none⟩] :=
  git_ok env _ s h

theorem deleteSavePoint_files (env : Env) (s : State) :
    (deleteSavePoint env s).2.files = s.files :=
  git_files env _ s

theorem deleteSavePoint_started (env : Env) (s : State) :
    (deleteSavePoint env s).2.started.map Event.argv =
      s.started.map Event.argv ++ [["git", "branch", "-d", "savepoint"]] :=
  git_started env _ s

theorem deleteSavePoint_finished (env : Env) (s : State)
    (h : (deleteSavePoint env s).1 = none) :
    (deleteSavePoint env s).2.finished =
      s.finished ++ [⟨["git", "branch", "-d", "savepoint"], none⟩] :=
  git_ok env _ s h

theorem pushCurrent_files (env : Env) (s : State) :
    (pushCurrent env s).2.files = s.files :=
  git_files env _ s

theorem pushCurrent_finished (env : Env) (s : State)
    (h : (pushCurrent env s).1 = none) :
    (pushCurrent env s).2.finished = s.finished ++ [⟨["git", "push", "-u"], none⟩] :=
  git_ok env _ s h

/-- An `os.Remove` that returns nil leaves no file behind, and touches no process. -/
theorem cleanRecordedBranches_ok (env : Env) (s : State)
    (h : (cleanRecordedBranches env s).1 = none) :
    (cleanRecordedBranches env s).2.files branchRecordPath = none ∧
      (cleanRecordedBranches env s).2.started = s.started ∧
      (cleanRecordedBranches env s).2.finished = s.finished := by
  unfold cleanRecordedBranches osRemove at h ⊢
  split at h
  · exact absurd h (by simp)
  · split at h
    · exact absurd h (by simp)
    · rename_i hr
      simp [hr, setFile]

/-- An `os.Remove` on a missing file fails and changes nothing. -/
theorem cleanRecordedBranches_missing (env : Env) (s : State)
    (h : s.files branchRecordPath = none) :
    cleanRecordedBranches env s =
      (some "remove .git/mergetron-branches: no such file or directory", s) := by
  unfold cleanRecordedBranches osRemove
  rw [h]
  rfl

/-- What `orFatal` does, by the result of the step. -/
theorem orFatal_err (step next : Step) (s : State) (e : Error)
    (h : (step s).1 = some e) : orFatal step next s = (some e, (step s).2) := by
  unfold orFatal
  split
  · rename_i e1 s1 heq
    rw [heq] at h ⊢
    simp at h
    rw [h]
  · rename_i s1 heq
    rw [heq] at h
    simp at h

theorem orFatal_ok (step next : Step) (s : State)
    (h : (step s).1 = none) : orFatal step next s = next (step s).2 := by
  unfold orFatal
  split
  · rename_i e1 s1 heq
    rw [heq] at h
    simp at h
  · rename_i s1 heq
    rw [heq]

/-! ## The steps and the outcome of git -/

/-- The error `git` returns is the outcome of the command in the environment. -/
theorem git_err (env : Env) (args : List String) (s : State) :
    (git env args s).1.err = gitOutcome env args s := by
  unfold git command.run command.start command.wait gitOutcome
  simp only [buildCommand]
  cases he : env.startProc s ("git" :: args) with
  | some e => rfl
  | none => rfl

/-- After a git command that ended well the state is the old one with the command in
both histories. -/
theorem git_state (env : Env) (args : List String) (s : State)
    (h : gitOutcome env args s = none) : (git env args s).2 = afterGit s args := by
  unfold gitOutcome at h
  unfold git command.run command.start command.wait afterGit
  simp only [buildCommand] at h ⊢
  cases he : env.startProc s ("git" :: args) with
  | some e => rw [he] at h; simp at h
  | none =>
    rw [he] at h
    simp only [] at h
    simp only [h]

theorem chDirRepoRoot_err (env : Env) (s : State) :
    (chDirRepoRoot env s).1 = gitOutcome env ["rev-parse", "--show-toplevel"] s := by
  rw [← git_err]
  unfold chDirRepoRoot
  dsimp only
  split
  · rename_i e he; rw [he]
  · rename_i he; rw [he]

theorem makeSavepoint_err (env : Env) (s : State) :
    (makeSavepoint env s).1 = gitOutcome env ["branch", "savepoint"] s :=
  git_err env _ s

theorem deleteSavePoint_err (env : Env) (s : State) :
    (deleteSavePoint env s).1 = gitOutcome env ["branch", "-d", "savepoint"] s :=
  git_err env _ s

theorem pushCurrent_err (env : Env) (s : State) :
    (pushCurrent env s).1 = gitOutcome env ["push", "-u"] s :=
  git_err env _ s

theorem deleteSavePoint_state (env : Env) (s : State)
    (h : gitOutcome env ["branch", "-d", "savepoint"] s = none) :
    (deleteSavePoint env s).2 = afterGit s ["branch", "-d", "savepoint"] :=
  git_state env _ s h

theorem makeSavepoint_state (env : Env) (s : State)
    (h : gitOutcome env ["branch", "savepoint"] s = none) :
    (makeSavepoint env s).2 = afterGit s ["branch", "savepoint"] :=
  git_state env _ s h

/-- After a root lookup that ended well the state is `afterRoot`. -/
theorem chDirRepoRoot_state (env : Env) (s : State)
    (h : gitOutcome env ["rev-parse", "--show-toplevel"] s = none) :
    (chDirRepoRoot env s).2 = afterRoot env s := by
  have he : (git env ["rev-parse", "--show-toplevel"] s).1.err = none := by
    rw [git_err]; exact h
  have hs := git_state env _ s h
  have hout : (git env ["rev-parse", "--show-toplevel"] s).1.stdout =
      (env.waitProc
        { s with started := s.started ++ [⟨["git", "rev-parse", "--show-toplevel"], none⟩] }
        ["git", "rev-parse", "--show-toplevel"]).stdout := by
    unfold gitOutcome at h
    unfold git command.run command.start command.wait
    simp only [buildCommand] at h ⊢
    cases hst : env.startProc s ["git", "rev-parse", "--show-toplevel"] with
    | some e => rw [hst] at h; simp at h
    | none => rfl
  unfold chDirRepoRoot osChdir afterRoot
  simp only [he, hs, hout]
  split <;> rfl

/-- The removal of the session file returns nil exactly when the file exists and the
environment lets it go; the file is then gone and nothing else has changed. -/
theorem cleanRecordedBranches_iff (env : Env) (s : State) :
    (cleanRecordedBranches env s).1 = none ↔
      s.files branchRecordPath ≠ none ∧ env.remove s branchRecordPath = none := by
  unfold cleanRecordedBranches osRemove
  cases hf : s.files branchRecordPath with
  | none => simp
  | some c =>
    cases hr : env.remove s branchRecordPath with
    | some e => simp
    | none => simp

theorem cleanRecordedBranches_state (env : Env) (s : State)
    (h : (cleanRecordedBranches env s).1 = none) :
    (cleanRecordedBranches env s).2 = setFile s branchRecordPath none := by
  have h2 := (cleanRecordedBranches_iff env s).mp h
  unfold cleanRecordedBranches osRemove
  cases hf : s.files branchRecordPath with
  | none => exact absurd hf h2.1
  | some c => simp only [h2.2]

/-! ## The JSON encoder -/

theorem toNat_ofNat_92 : (Char.ofNat 92).toNat = 92 := by decide

/-- `jsonUnescape` reads back what `jsonEscape` wrote. -/
theorem jsonUnescape_escape (c : Char) (r : List Char) :
    jsonUnescape (jsonEscape c ++ r) = some (c, r) := by
  have hc : Char.ofNat c.toNat = c := Char.ofNat_toNat c
  unfold jsonEscape
  simp only []
  split_ifs with h1 h2 h3 h4 h5 h6 h7 h8
  · simp [jsonUnescape, toNat_ofNat_92, h1]
  · rw [← hc, h2]; rfl
  · rw [← hc, h3]; rfl
  · rw [← hc, h4]; rfl
  · rw [← hc, h5]; rfl
  · rw [← hc, h6]; rfl
  · have hn : c.toNat < 32 ∨ c.toNat = 60 ∨ c.toNat = 62 ∨ c.toNat = 38 := h7
    rw [← hc]
    generalize c.toNat = n at hn
    rcases hn with hn | hn | hn | hn
    · interval_cases n <;> rfl
    · subst hn; rfl
    · subst hn; rfl
    · subst hn; rfl
  · rw [← hc]
    rcases h8 with h8 | h8 <;> rw [h8] <;> rfl
  · simp only [List.singleton_append, jsonUnescape]
    have h34 : c.toNat ≠ 34 := fun h => h1 (Or.inl h)
    have h92 : c.toNat ≠ 92 := fun h => h1 (Or.inr h)
    simp [h34, h92]

theorem jsonUnescape_quote (r : List Char) : jsonUnescape (Char.ofNat 34 :: r) = none := rfl

theorem jsonEscape_body_inj : ∀ (s₁ s₂ r₁ r₂ : List Char),
    s₁.flatMap jsonEscape ++ Char.ofNat 34 :: r₁ =
      s₂.flatMap jsonEscape ++ Char.ofNat 34 :: r₂ → s₁ = s₂ ∧ r₁ = r₂
  | [], [], r₁, r₂, h => by simpa using h
  | [], c :: t, r₁, r₂, h => by
    have h2 := congrArg jsonUnescape h
    simp only [List.flatMap_cons, List.flatMap_nil, List.nil_append, List.append_assoc,
      jsonUnescape_escape, jsonUnescape_quote] at h2
    cases h2
  | c :: t, [], r₁, r₂, h => by
    have h2 := congrArg jsonUnescape h
    simp only [List.flatMap_cons, List.flatMap_nil, List.nil_append, List.append_assoc,
      jsonUnescape_escape, jsonUnescape_quote] at h2
    cases h2
  | c₁ :: t₁, c₂ :: t₂, r₁, r₂, h => by
    have h2 := congrArg jsonUnescape h
    simp only [List.flatMap_cons, List.append_assoc, jsonUnescape_escape, Option.some.injEq,
      Prod.mk.injEq] at h2
    obtain ⟨hc, ht⟩ := h2
    obtain ⟨ht2, hr⟩ := jsonEscape_body_inj t₁ t₂ r₁ r₂ ht
    exact ⟨by rw [hc, ht2], hr⟩

theorem jsonStringChars_inj (x y : String) (r₁ r₂ : List Char)
    (h : jsonStringChars x ++ r₁ = jsonStringChars y ++ r₂) : x = y ∧ r₁ = r₂ := by
  unfold jsonStringChars at h
  simp only [List.cons_append, List.append_assoc, List.singleton_append, List.cons.injEq,
    true_and] at h
  obtain ⟨hd, hr⟩ := jsonEscape_body_inj _ _ _ _ h
  exact ⟨String.ext hd, hr⟩

theorem jsonTail_inj : ∀ (l₁ l₂ : List String) (r₁ r₂ : List Char),
    jsonTail l₁ ++ ']' :: r₁ = jsonTail l₂ ++ ']' :: r₂ → l₁ = l₂ ∧ r₁ = r₂
  | [], [], r₁, r₂, h => by simpa [jsonTail] using h
  | [], y :: l₂, r₁, r₂, h => by
    simp only [jsonTail, List.nil_append, List.cons_append, List.cons.injEq] at h
    exact absurd h.1 (by decide)
  | x :: l₁, [], r₁, r₂, h => by
    simp only [jsonTail, List.nil_append, List.cons_append, List.cons.injEq] at h
    exact absurd h.1 (by decide)
  | x :: l₁, y :: l₂, r₁, r₂, h => by
    simp only [jsonTail, List.cons_append, List.append_assoc, List.cons.injEq, true_and] at h
    obtain ⟨hxy, ht⟩ := jsonStringChars_inj x y _ _ h
    obtain ⟨hl, hr⟩ := jsonTail_inj l₁ l₂ r₁ r₂ ht
    exact ⟨by rw [hxy, hl], hr⟩

/-- The JSON text of a branch list determines the list: same elements, same order. -/
theorem jsonArray_injective (l₁ l₂ : List String) (h : jsonArray l₁ = jsonArray l₂) :
    l₁ = l₂ := by
  unfold jsonArray at h
  have h2 : jsonElems l₁ ++ [']'] = jsonElems l₂ ++ [']'] := by
    have h3 := congrArg String.data h
    exact List.tail_eq_of_cons_eq h3
  cases l₁ with
  | nil =>
    cases l₂ with
    | nil => rfl
    | cons y l₂ =>
      simp only [jsonElems, jsonStringChars, List.nil_append, List.cons_append,
        List.cons.injEq] at h2
      exact absurd h2.1 (by decide)
  | cons x l₁ =>
    cases l₂ with
    | nil =>
      simp only [jsonElems, jsonStringChars, List.nil_append, List.cons_append,
        List.cons.injEq] at h2
      exact absurd h2.1 (by decide)
    | cons y l₂ =>
      simp only [jsonElems, List.append_assoc] at h2
      obtain ⟨hxy, ht⟩ := jsonStringChars_inj x y _ _ h2
      obtain ⟨hl, _⟩ := jsonTail_inj l₁ l₂ [] [] ht
      rw [hxy, hl]

/-- A session file written by a successful `Encode` holds the text of one list only. -/
theorem jsonArray_line_injective (l₁ l₂ : List String)
    (h : jsonArray l₁ ++ "\n" = jsonArray l₂ ++ "\n") : l₁ = l₂ := by
  apply jsonArray_injective
  have h2 := congrArg String.data h
  simp only [String.data_append] at h2
  exact String.ext (List.append_cancel_right h2)

/-! ## Splitting a branch name -/

/-- The empty pattern occurs in every text. -/
theorem occursIn_nil (t : List Char) : occursIn [] t = true := by
  cases t <;> rfl

/-- On every text the empty pattern yields one submatch, the empty match. -/
theorem branchSplitRE_find (name : String) :
    branchSplitRE.FindStringSubmatch name = [""] := by
  show (if occursIn "".data name.data then [""] else []) = [""]
  have h : occursIn "".data name.data = true := occursIn_nil name.data
  rw [h]
  rfl

/-- What `splitBranchname` returns, whatever the name. -/
theorem splitBranchname_eq (name : String) :
    splitBranchname name =
      .error ("Couldn't split " ++ name ++ " in remote and branchname") := by
  unfold splitBranchname
  rw [branchSplitRE_find]
  rfl

/-- C4: for every input string `splitBranchname` returns an error: the empty pattern
yields exactly one submatch, so the `len(matches) < 2` branch is taken and no pair of
remote and branch is produced. -/
theorem splitBranchname_always_fails (name : String) :
    (branchSplitRE.FindStringSubmatch name).length = 1 ∧
      splitBranchname name =
        .error ("Couldn't split " ++ name ++ " in remote and branchname") ∧
      ∀ remote branch, splitBranchname name ≠ .ok (remote, branch) := by
  refine ⟨by rw [branchSplitRE_find]; rfl, splitBranchname_eq name, ?_⟩
  intro remote branch h
  rw [splitBranchname_eq] at h
  cases h

/-- C1, at the input `origin/master`: the code returns an error where the claim expects
the pair `(origin, master)`. -/
theorem splitBranchname_origin_master :
    splitBranchname "origin/master" =
        .error "Couldn't split origin/master in remote and branchname" ∧
      splitBranchname "origin/master" ≠ .ok ("origin", "master") := by
  have h2 : splitBranchname "origin/master" =
      .error "Couldn't split origin/master in remote and branchname" := rfl
  refine ⟨h2, ?_⟩
  intro h
  rw [h2] at h
  cases h

/-! ## The command dispatcher -/

/-- C3, on the registry of the source: `merge` is registered with the action `merge`,
while `review` and `complete` are in no entry, like any name other than `merge`. -/
theorem subcommands_registry (env : Env) :
    ((subcommands env).lookup "merge").map Cmd.action = some Action.merge ∧
      (subcommands env).lookup "review" = none ∧
      (subcommands env).lookup "complete" = none ∧
      ∀ name, name ≠ "merge" → (subcommands env).lookup name = none := by
  refine ⟨rfl, rfl, rfl, ?_⟩
  intro name hname
  have hne : (name == "merge") = false := by simp [hname]
  simp [subcommands, List.lookup, hne]

/-- A name that is in no entry of the registry runs no action: `main` returns without
an error and without touching the world. -/
theorem main_unregistered (env : Env) (osArgs : List String) (args : CmdArgs)
    (subcmd : String) (s : State)
    (hparse : env.docopt (doc ++ (subcommands env).foldl
      (fun acc kv => acc ++ "\n  " ++ kv.1 ++ ":   " ++ kv.2.desc) "") osArgs = some args)
    (hsub : args.lookup "<subcommand>" = some (.str subcmd))
    (hname : (subcommands env).lookup subcmd = none) :
    main env osArgs s = (none, s) := by
  unfold main
  simp only [hparse, hsub, hname]

/-! ## complete -/

/-- C7: in every starting state in which `complete` returns no error, the resulting
state has no session file, and the deletion of the savepoint branch has been run to
its end with a nil error (between the root lookup and the push). -/
theorem complete_ok_state (env : Env) (args : CmdArgs) (s : State)
    (h : (complete env args s).1 = none) :
    (complete env args s).2.files branchRecordPath = none ∧
      (complete env args s).2.finished = s.finished ++
        [⟨["git", "rev-parse", "--show-toplevel"], none⟩,
         ⟨["git", "branch", "-d", "savepoint"], none⟩,
         ⟨["git", "push", "-u"], none⟩] := by
  unfold complete at h ⊢
  cases h1 : (chDirRepoRoot env s).1 with
  | some e => rw [orFatal_err _ _ _ e h1] at h; simp at h
  | none =>
    rw [orFatal_ok _ _ _ h1] at h ⊢
    cases h2 : (cleanRecordedBranches env (chDirRepoRoot env s).2).1 with
    | some e => rw [orFatal_err _ _ _ e h2] at h; simp at h
    | none =>
      rw [orFatal_ok _ _ _ h2] at h ⊢
      cases h3 : (deleteSavePoint env
          (cleanRecordedBranches env (chDirRepoRoot env s).2).2).1 with
      | some e => rw [orFatal_err _ _ _ e h3] at h; simp at h
      | none =>
        rw [orFatal_ok _ _ _ h3] at h ⊢
        cases h4 : (pushCurrent env (deleteSavePoint env
            (cleanRecordedBranches env (chDirRepoRoot env s).2).2).2).1 with
        | some e => rw [orFatal_err _ _ _ e h4] at h; simp at h
        | none =>
          rw [orFatal_ok _ _ _ h4]
          have hc := cleanRecordedBranches_ok env _ h2
          constructor
          · simp only [orFatal, cleanBranches, done]
            rw [pushCurrent_files, deleteSavePoint_files]
            exact hc.1
          · simp only [orFatal, cleanBranches, done]
            rw [pushCurrent_finished _ _ h4, deleteSavePoint_finished _ _ h3, hc.2.2,
              chDirRepoRoot_finished _ _ h1]
            simp

/-- C7 at a checkout with a session file where every command succeeds. -/
theorem complete_ok_state_witness :
    (complete (sampleEnv [] false) [] sessionState).1 = none ∧
      (complete (sampleEnv [] false) [] sessionState).2.files branchRecordPath = none ∧
      (complete (sampleEnv [] false) [] sessionState).2.finished = sessionState.finished ++
        [⟨["git", "rev-parse", "--show-toplevel"], none⟩,
         ⟨["git", "branch", "-d", "savepoint"], none⟩,
         ⟨["git", "push", "-u"], none⟩] :=
  ⟨by decide, complete_ok_state (sampleEnv [] false) [] sessionState (by decide)⟩

/-- `complete` returns no error exactly when its four fallible steps do. -/
theorem complete_ok_iff (env : Env) (args : CmdArgs) (s : State) :
    (complete env args s).1 = none ↔
      (chDirRepoRoot env s).1 = none ∧
      (cleanRecordedBranches env (chDirRepoRoot env s).2).1 = none ∧
      (deleteSavePoint env
        (cleanRecordedBranches env (chDirRepoRoot env s).2).2).1 = none ∧
      (pushCurrent env (deleteSavePoint env
        (cleanRecordedBranches env (chDirRepoRoot env s).2).2).2).1 = none := by
  unfold complete
  cases h1 : (chDirRepoRoot env s).1 with
  | some e => rw [orFatal_err _ _ _ e h1]; simp
  | none =>
    rw [orFatal_ok _ _ _ h1]
    cases h2 : (cleanRecordedBranches env (chDirRepoRoot env s).2).1 with
    | some e => rw [orFatal_err _ _ _ e h2]; simp
    | none =>
      rw [orFatal_ok _ _ _ h2]
      cases h3 : (deleteSavePoint env
          (cleanRecordedBranches env (chDirRepoRoot env s).2).2).1 with
      | some e => rw [orFatal_err _ _ _ e h3]; simp
      | none =>
        rw [orFatal_ok _ _ _ h3]
        cases h4 : (pushCurrent env (deleteSavePoint env
            (cleanRecordedBranches env (chDirRepoRoot env s).2).2).2).1 with
        | some e => rw [orFatal_err _ _ _ e h4]; simp
        | none =>
          rw [orFatal_ok _ _ _ h4]
          simp [orFatal, cleanBranches, done]

/-- Without a session file `complete` fails. -/
theorem complete_fails_of_missing (env : Env) (args : CmdArgs) (s : State)
    (hmissing : s.files branchRecordPath = none) : (complete env args s).1 ≠ none := by
  intro hok
  have hrm := ((complete_ok_iff env args s).mp hok).2.1
  have hfile : (chDirRepoRoot env s).2.files branchRecordPath = none := by
    rw [chDirRepoRoot_files]; exact hmissing
  rw [cleanRecordedBranches_missing env _ hfile] at hrm
  simp at hrm

/-- The root lookup touches no file. -/
theorem afterRoot_files (env : Env) (s : State) : (afterRoot env s).files = s.files := by
  unfold afterRoot afterGit
  dsimp only
  split <;> rfl

/-- `complete` returns no error exactly when git and the file system let every one of
its four fallible steps through. -/
theorem complete_ok_iff_outcomes (env : Env) (args : CmdArgs) (s : State) :
    (complete env args s).1 = none ↔
      gitOutcome env ["rev-parse", "--show-toplevel"] s = none ∧
      s.files branchRecordPath ≠ none ∧
      env.remove (afterRoot env s) branchRecordPath = none ∧
      gitOutcome env ["branch", "-d", "savepoint"]
        (setFile (afterRoot env s) branchRecordPath none) = none ∧
      gitOutcome env ["push", "-u"]
        (afterGit (setFile (afterRoot env s) branchRecordPath none)
          ["branch", "-d", "savepoint"]) = none := by
  rw [complete_ok_iff, chDirRepoRoot_err]
  constructor
  · rintro ⟨h1, h2, h3, h4⟩
    rw [chDirRepoRoot_state env s h1] at h2 h3 h4
    have hc := (cleanRecordedBranches_iff env _).mp h2
    rw [afterRoot_files] at hc
    rw [cleanRecordedBranches_state env _ h2] at h3 h4
    rw [deleteSavePoint_err] at h3
    rw [deleteSavePoint_state env _ h3, pushCurrent_err] at h4
    exact ⟨h1, hc.1, hc.2, h3, h4⟩
  · rintro ⟨h1, hf, hr, h3, h4⟩
    have h2 : (cleanRecordedBranches env (afterRoot env s)).1 = none :=
      (cleanRecordedBranches_iff env _).mpr ⟨by rw [afterRoot_files]; exact hf, hr⟩
    rw [chDirRepoRoot_state env s h1, cleanRecordedBranches_state env _ h2,
      deleteSavePoint_err, deleteSavePoint_state env _ h3, pushCurrent_err]
    exact ⟨h1, h2, h3, h4⟩

/-- C8: `complete` returns no error exactly when `git rev-parse --show-toplevel` ends
well, the session file exists and its removal is allowed, `git branch -d savepoint`
ends well and `git push -u` ends well, each in the state the steps before it left; so
it fails whenever the session file is missing, whenever the deletion of the savepoint
errors and whenever the push fails; and with no session file present it fails. -/
theorem complete_fails_unless_all_ok (env : Env) (args : CmdArgs) (s : State) :
    ((complete env args s).1 = none ↔
      gitOutcome env ["rev-parse", "--show-toplevel"] s = none ∧
      s.files branchRecordPath ≠ none ∧
      env.remove (afterRoot env s) branchRecordPath = none ∧
      gitOutcome env ["branch", "-d", "savepoint"]
        (setFile (afterRoot env s) branchRecordPath none) = none ∧
      gitOutcome env ["push", "-u"]
        (afterGit (setFile (afterRoot env s) branchRecordPath none)
          ["branch", "-d", "savepoint"]) = none) ∧
    (s.files branchRecordPath = none → (complete env args s).1 ≠ none) :=
  ⟨complete_ok_iff_outcomes env args s, complete_fails_of_missing env args s⟩

/-- C8 at four inputs: a fresh checkout without a session file; a checkout with a
session file where `git branch -d savepoint` exits with status 1; the same where
`git push -u` exits with status 1; and the same where every command succeeds. -/
theorem complete_fails_unless_all_ok_witness :
    (freshState.files branchRecordPath = none ∧
        (complete (sampleEnv [] false) [] freshState).1 ≠ none) ∧
      (gitOutcome (sampleEnv [["git", "branch", "-d", "savepoint"]] false)
          ["branch", "-d", "savepoint"]
          (setFile (afterRoot (sampleEnv [["git", "branch", "-d", "savepoint"]] false)
            sessionState) branchRecordPath none) = some "exit status 1" ∧
        (complete (sampleEnv [["git", "branch", "-d", "savepoint"]] false) []
          sessionState).1 ≠ none) ∧
      (gitOutcome (sampleEnv [["git", "push", "-u"]] false) ["push", "-u"]
          (afterGit (setFile (afterRoot (sampleEnv [["git", "push", "-u"]] false)
            sessionState) branchRecordPath none) ["branch", "-d", "savepoint"]) =
            some "exit status 1" ∧
        (complete (sampleEnv [["git", "push", "-u"]] false) [] sessionState).1 ≠ none) ∧
      (complete (sampleEnv [] false) [] sessionState).1 = none :=
  ⟨⟨rfl, (complete_fails_unless_all_ok (sampleEnv [] false) [] freshState).2 rfl⟩,
   ⟨by decide, fun h => absurd
      ((complete_fails_unless_all_ok (sampleEnv [["git", "branch", "-d", "savepoint"]] false)
        [] sessionState).1.mp h).2.2.2.1 (by decide)⟩,
   ⟨by decide, fun h => absurd
      ((complete_fails_unless_all_ok (sampleEnv [["git", "push", "-u"]] false)
        [] sessionState).1.mp h).2.2.2.2 (by decide)⟩,
   (complete_fails_unless_all_ok (sampleEnv [] false) [] sessionState).1.mpr
     ⟨by decide, by decide, by decide, by decide, by decide⟩⟩

/-- Without a session file, `complete` stops at the removal, once the root lookup has
succeeded. -/
theorem complete_missing (env : Env) (args : CmdArgs) (t : State)
    (hfile : t.files branchRecordPath = none) (hroot : (chDirRepoRoot env t).1 = none) :
    complete env args t =
      (some "remove .git/mergetron-branches: no such file or directory",
        (chDirRepoRoot env t).2) := by
  have hfile2 : (chDirRepoRoot env t).2.files branchRecordPath = none := by
    rw [chDirRepoRoot_files]; exact hfile
  have hm := cleanRecordedBranches_missing env _ hfile2
  unfold complete
  rw [orFatal_ok _ _ _ hroot, orFatal_err _ _ _ _ (by rw [hm]), hm]

/-- C10: when the root lookup and the removal of the session file succeed and the
deletion of the savepoint fails, `complete` returns that error with the session file
already removed and with no push issued; a second `complete` from the resulting state
fails too, and once its root lookup has succeeded it fails at the removal of the
session file, having issued no further command. -/
theorem complete_not_atomic (env : Env) (args args2 : CmdArgs) (s : State) (e : Error)
    (hroot : (chDirRepoRoot env s).1 = none)
    (hrm : (cleanRecordedBranches env (chDirRepoRoot env s).2).1 = none)
    (hdel : (deleteSavePoint env
      (cleanRecordedBranches env (chDirRepoRoot env s).2).2).1 = some e) :
    (complete env args s).1 = some e ∧
      (complete env args s).2.files branchRecordPath = none ∧
      (complete env args s).2.started.map Event.argv = s.started.map Event.argv ++
        [["git", "rev-parse", "--show-toplevel"], ["git", "branch", "-d", "savepoint"]] ∧
      (complete env args2 (complete env args s).2).1 ≠ none ∧
      ((chDirRepoRoot env (complete env args s).2).1 = none →
        (complete env args2 (complete env args s).2).1 =
            some "remove .git/mergetron-branches: no such file or directory" ∧
          (complete env args2 (complete env args s).2).2.started.map Event.argv =
            (complete env args s).2.started.map Event.argv ++
              [["git", "rev-parse", "--show-toplevel"]]) := by
  have hfst : complete env args s = (some e, (deleteSavePoint env
      (cleanRecordedBranches env (chDirRepoRoot env s).2).2).2) := by
    unfold complete
    rw [orFatal_ok _ _ _ hroot, orFatal_ok _ _ _ hrm, orFatal_err _ _ _ e hdel]
  have hc := cleanRecordedBranches_ok env _ hrm
  have hgone : (complete env args s).2.files branchRecordPath = none := by
    rw [hfst]
    show (deleteSavePoint env _).2.files branchRecordPath = none
    rw [deleteSavePoint_files]
    exact hc.1
  refine ⟨by rw [hfst], hgone, ?_, ?_, ?_⟩
  · rw [hfst]
    show (deleteSavePoint env _).2.started.map Event.argv = _
    rw [deleteSavePoint_started, hc.2.1, chDirRepoRoot_started]
    simp
  · exact complete_fails_of_missing env args2 _ hgone
  · intro hroot2
    rw [complete_missing env args2 _ hgone hroot2]
    exact ⟨rfl, chDirRepoRoot_started env _⟩

/-- C10 at a checkout with a session file where `git branch -d savepoint` fails. -/
theorem complete_not_atomic_witness :
    (chDirRepoRoot (sampleEnv [["git", "branch", "-d", "savepoint"]] false)
        sessionState).1 = none ∧
      (complete (sampleEnv [["git", "branch", "-d", "savepoint"]] false) []
        sessionState).1 = some "exit status 1" ∧
      (complete (sampleEnv [["git", "branch", "-d", "savepoint"]] false) []
        sessionState).2.files branchRecordPath = none ∧
      (complete (sampleEnv [["git", "branch", "-d", "savepoint"]] false) []
        (complete (sampleEnv [["git", "branch", "-d", "savepoint"]] false) []
          sessionState).2).1 ≠ none :=
  have h := complete_not_atomic (sampleEnv [["git", "branch", "-d", "savepoint"]] false)
    [] [] sessionState "exit status 1" (by decide) (by decide) (by decide)
  ⟨by decide, h.1, h.2.1, h.2.2.2.1⟩

/-! ## merge -/

/-- The error `recordBranches` returns is the one of `os.Create`, whatever the write
does. -/
theorem recordBranches_err (env : Env) (branches : List String) (s : State) :
    (recordBranches env branches s).1 = (osCreate env branchRecordPath s).1 := by
  unfold recordBranches
  split
  · rename_i e s1 heq; rw [heq]
  · rename_i s1 heq; rw [heq]

/-- `recordBranches` runs no process. -/
theorem recordBranches_procs (env : Env) (branches : List String) (s : State) :
    (recordBranches env branches s).2.started = s.started ∧
      (recordBranches env branches s).2.finished = s.finished := by
  unfold recordBranches Encode fileWrite osCreate
  cases hc : env.create s branchRecordPath with
  | some e => simp
  | none =>
    simp only []
    split <;> simp [setFile]

/-- When `os.Create` fails, `recordBranches` leaves every file as it was. -/
theorem recordBranches_create_failed (env : Env) (branches : List String) (s : State)
    (e : Error) (hc : (osCreate env branchRecordPath s).1 = some e) :
    (recordBranches env branches s).2.files = s.files := by
  unfold recordBranches
  unfold osCreate at hc ⊢
  cases h : env.create s branchRecordPath with
  | some e1 => simp
  | none => rw [h] at hc; simp at hc

/-- When `os.Create` succeeds, the session file exists after `recordBranches`. -/
theorem recordBranches_exists (env : Env) (branches : List String) (s : State)
    (hc : (osCreate env branchRecordPath s).1 = none) :
    (recordBranches env branches s).2.files branchRecordPath ≠ none := by
  unfold recordBranches Encode fileWrite
  unfold osCreate at hc ⊢
  cases h : env.create s branchRecordPath with
  | some e1 => rw [h] at hc; simp at hc
  | none =>
    simp only []
    split <;> simp [setFile]

/-- When `os.Create` and the write of the encoder both succeed, the session file holds
the JSON array of the branch list, followed by a newline. -/
theorem recordBranches_written (env : Env) (branches : List String) (s : State)
    (hc : (osCreate env branchRecordPath s).1 = none)
    (hw : (Encode env branchRecordPath branches (osCreate env branchRecordPath s).2).1
      = none) :
    (recordBranches env branches s).2.files branchRecordPath =
      some (jsonArray branches ++ "\n") := by
  unfold recordBranches
  unfold Encode fileWrite at hw ⊢
  unfold osCreate at hc hw ⊢
  cases h : env.create s branchRecordPath with
  | some e1 => rw [h] at hc; simp at hc
  | none =>
    simp only [h] at hw ⊢
    split at hw
    · simp at hw
    · rename_i hwr
      simp [hwr, setFile]

/-- On an empty list `mergeBranches` fails at once. -/
theorem mergeBranches_nil (env : Env) (s : State) :
    mergeBranches env [] s = (some "Need some origin/branches!", s) := rfl

/-- On a list that is not empty `mergeBranches` fails at the split of the first name,
before any pull. -/
theorem mergeBranches_cons (env : Env) (b : String) (rest : List String) (s : State) :
    mergeBranches env (b :: rest) s =
      (some ("Couldn't split " ++ b ++ " in remote and branchname"), s) := by
  unfold mergeBranches pullEach
  rw [splitBranchname_eq]
  rfl

/-- Whatever the list, `mergeBranches` fails and leaves the world as it was. -/
theorem mergeBranches_fails (env : Env) (branches : List String) (s : State) :
    (mergeBranches env branches s).1 ≠ none ∧ (mergeBranches env branches s).2 = s := by
  cases branches with
  | nil => rw [mergeBranches_nil]; simp
  | cons b rest => rw [mergeBranches_cons]; simp

/-- Only the entry `<branches>` of the arguments matters to `merge`. -/
theorem merge_args (env : Env) (args : CmdArgs) (branches : List String)
    (h : args.lookup "<branches>" = some (.strs branches)) :
    merge env args = merge env (mergeArgs branches) := by
  funext s
  unfold merge
  rw [h]
  rfl

/-- The body of `merge` once the branch list is read from the arguments. -/
theorem merge_mergeArgs (env : Env) (branches : List String) (s : State) :
    merge env (mergeArgs branches) s =
      (orFatal (chDirRepoRoot env) <|
        orFatal (makeSavepoint env) <|
        orFatal (recordBranches env branches) <|
        orFatal (mergeBranches env branches) <|
        orFatal (spawnDifftool env) <|
        orFatal runQA done) s := rfl

/-- C2, as stated, fails in a fresh checkout where every command succeeds: `merge` on
the empty list returns the error of `mergeBranches` after `git rev-parse` and
`git branch savepoint` have been run. -/
theorem merge_empty_runs_git :
    (merge (sampleEnv [] false) (mergeArgs []) freshState).1 =
        some "Need some origin/branches!" ∧
      (merge (sampleEnv [] false) (mergeArgs []) freshState).2.started =
        [⟨["git", "rev-parse", "--show-toplevel"], none⟩,
         ⟨["git", "branch", "savepoint"], none⟩] ∧
      (merge (sampleEnv [] false) (mergeArgs []) freshState).2.started ≠ [] := by
  decide

/-- C2, amended: on the empty list `merge` fails; `mergeBranches` itself fails at once
and runs nothing, so no pull is issued and no difftool is spawned; the commands the
workflow has issued by then are `git rev-parse --show-toplevel` alone when the root
lookup failed, and `git rev-parse --show-toplevel` followed by `git branch savepoint`
when the root lookup succeeded, and no other. -/
theorem merge_empty_fails (env : Env) (s : State) :
    (merge env (mergeArgs []) s).1 ≠ none ∧
      mergeBranches env [] s = (some "Need some origin/branches!", s) ∧
      (gitOutcome env ["rev-parse", "--show-toplevel"] s ≠ none →
        (merge env (mergeArgs []) s).2.started.map Event.argv =
          s.started.map Event.argv ++ [["git", "rev-parse", "--show-toplevel"]]) ∧
      (gitOutcome env ["rev-parse", "--show-toplevel"] s = none →
        (merge env (mergeArgs []) s).2.started.map Event.argv =
          s.started.map Event.argv ++
            [["git", "rev-parse", "--show-toplevel"], ["git", "branch", "savepoint"]]) := by
  refine ⟨?_, rfl, ?_, ?_⟩
  · rw [merge_mergeArgs]
    cases h1 : (chDirRepoRoot env s).1 with
    | some e => rw [orFatal_err _ _ _ e h1]; simp
    | none =>
      rw [orFatal_ok _ _ _ h1]
      cases h2 : (makeSavepoint env (chDirRepoRoot env s).2).1 with
      | some e => rw [orFatal_err _ _ _ e h2]; simp
      | none =>
        rw [orFatal_ok _ _ _ h2]
        cases h3 : (recordBranches env [] (makeSavepoint env (chDirRepoRoot env s).2).2).1 with
        | some e => rw [orFatal_err _ _ _ e h3]; simp
        | none =>
          rw [orFatal_ok _ _ _ h3, orFatal_err _ _ _ _ (by rw [mergeBranches_nil])]
          simp
  · intro hfail
    rw [← chDirRepoRoot_err] at hfail
    rw [merge_mergeArgs]
    cases h1 : (chDirRepoRoot env s).1 with
    | none => exact absurd h1 hfail
    | some e =>
      rw [orFatal_err _ _ _ e h1]
      exact chDirRepoRoot_started env s
  · intro hok
    rw [← chDirRepoRoot_err] at hok
    rw [merge_mergeArgs, orFatal_ok _ _ _ hok]
    cases h2 : (makeSavepoint env (chDirRepoRoot env s).2).1 with
    | some e =>
      rw [orFatal_err _ _ _ e h2]
      show (makeSavepoint env _).2.started.map Event.argv = _
      rw [makeSavepoint_started, chDirRepoRoot_started]
      simp
    | none =>
      rw [orFatal_ok _ _ _ h2]
      cases h3 : (recordBranches env [] (makeSavepoint env (chDirRepoRoot env s).2).2).1 with
      | some e =>
        rw [orFatal_err _ _ _ e h3]
        show (recordBranches env [] _).2.started.map Event.argv = _
        rw [(recordBranches_procs env [] _).1, makeSavepoint_started,
          chDirRepoRoot_started]
        simp
      | none =>
        rw [orFatal_ok _ _ _ h3, orFatal_err _ _ _ _ (by rw [mergeBranches_nil])]
        rw [mergeBranches_nil]
        show (recordBranches env [] _).2.started.map Event.argv = _
        rw [(recordBranches_procs env [] _).1, makeSavepoint_started,
          chDirRepoRoot_started]
        simp

/-- C2, amended, at two inputs: a checkout with a session file where the root lookup
exits with status 1, and one where every command succeeds. -/
theorem merge_empty_fails_witness :
    (gitOutcome (sampleEnv [["git", "rev-parse", "--show-toplevel"]] false)
        ["rev-parse", "--show-toplevel"] sessionState = some "exit status 1" ∧
      (merge (sampleEnv [["git", "rev-parse", "--show-toplevel"]] false) (mergeArgs [])
        sessionState).2.started.map Event.argv =
          sessionState.started.map Event.argv ++
            [["git", "rev-parse", "--show-toplevel"]]) ∧
      (gitOutcome (sampleEnv [] false) ["rev-parse", "--show-toplevel"] sessionState
          = none ∧
        (merge (sampleEnv [] false) (mergeArgs []) sessionState).2.started.map Event.argv =
          sessionState.started.map Event.argv ++
            [["git", "rev-parse", "--show-toplevel"], ["git", "branch", "savepoint"]]) :=
  ⟨⟨by decide,
    (merge_empty_fails (sampleEnv [["git", "rev-parse", "--show-toplevel"]] false)
      sessionState).2.2.1 (by decide)⟩,
   ⟨by decide, (merge_empty_fails (sampleEnv [] false) sessionState).2.2.2 (by decide)⟩⟩

/-- For a branch list that is not empty, when the root lookup, the creation of the
savepoint and `os.Create` of the session file succeed, `merge` fails at the split of the
first branch name; by then the savepoint has been created, the session file exists, and
the only commands issued are the root lookup and the savepoint creation: no pull, no
difftool.  The file holds the JSON array of the list when the write of the encoder
succeeded as well. -/
theorem merge_fails_at_split (env : Env) (branches : List String) (s : State)
    (hne : branches ≠ [])
    (hroot : gitOutcome env ["rev-parse", "--show-toplevel"] s = none)
    (hsave : gitOutcome env ["branch", "savepoint"] (afterRoot env s) = none)
    (hcreate : env.create (afterGit (afterRoot env s) ["branch", "savepoint"])
      branchRecordPath = none) :
    (merge env (mergeArgs branches) s).1 = branches.head?.map
        (fun b => "Couldn't split " ++ b ++ " in remote and branchname") ∧
      (merge env (mergeArgs branches) s).1 ≠ none ∧
      (merge env (mergeArgs branches) s).2.finished = s.finished ++
        [⟨["git", "rev-parse", "--show-toplevel"], none⟩,
         ⟨["git", "branch", "savepoint"], none⟩] ∧
      (merge env (mergeArgs branches) s).2.files branchRecordPath ≠ none ∧
      (merge env (mergeArgs branches) s).2.started.map Event.argv =
        s.started.map Event.argv ++
          [["git", "rev-parse", "--show-toplevel"], ["git", "branch", "savepoint"]] ∧
      (env.write (setFile (afterGit (afterRoot env s) ["branch", "savepoint"])
          branchRecordPath (some "")) branchRecordPath (jsonArray branches ++ "\n") = none →
        (merge env (mergeArgs branches) s).2.files branchRecordPath =
          some (jsonArray branches ++ "\n")) := by
  obtain ⟨b, rest, rfl⟩ := List.exists_cons_of_ne_nil hne
  have hroot1 : (chDirRepoRoot env s).1 = none := by rw [chDirRepoRoot_err]; exact hroot
  have hst1 := chDirRepoRoot_state env s hroot
  have hsave1 : (makeSavepoint env (chDirRepoRoot env s).2).1 = none := by
    rw [makeSavepoint_err, hst1]; exact hsave
  have hst2 : (makeSavepoint env (chDirRepoRoot env s).2).2 =
      afterGit (afterRoot env s) ["branch", "savepoint"] := by
    rw [hst1]; exact makeSavepoint_state env _ hsave
  have hcreate1 : (osCreate env branchRecordPath
      (makeSavepoint env (chDirRepoRoot env s).2).2).1 = none := by
    rw [hst2]
    unfold osCreate
    rw [hcreate]
  have hrec : (recordBranches env (b :: rest)
      (makeSavepoint env (chDirRepoRoot env s).2).2).1 = none := by
    rw [recordBranches_err]; exact hcreate1
  have hm : merge env (mergeArgs (b :: rest)) s =
      (some ("Couldn't split " ++ b ++ " in remote and branchname"),
        (recordBranches env (b :: rest)
          (makeSavepoint env (chDirRepoRoot env s).2).2).2) := by
    rw [merge_mergeArgs, orFatal_ok _ _ _ hroot1, orFatal_ok _ _ _ hsave1,
      orFatal_ok _ _ _ hrec, orFatal_err _ _ _ _ (by rw [mergeBranches_cons]),
      mergeBranches_cons]
  have hp := recordBranches_procs env (b :: rest)
    (makeSavepoint env (chDirRepoRoot env s).2).2
  rw [hm]
  refine ⟨rfl, by simp, ?_, ?_, ?_, ?_⟩
  · show (recordBranches env (b :: rest) _).2.finished = _
    rw [hp.2, makeSavepoint_finished _ _ hsave1, chDirRepoRoot_finished _ _ hroot1]
    simp
  · exact recordBranches_exists env _ _ hcreate1
  · show (recordBranches env (b :: rest) _).2.started.map Event.argv = _
    rw [hp.1, makeSavepoint_started, chDirRepoRoot_started]
    simp
  · intro hwrite
    apply recordBranches_written env _ _ hcreate1
    rw [hst2]
    unfold Encode fileWrite osCreate
    simp only [hcreate]
    rw [hwrite]

/-- C5, in a fresh checkout whose disk is full, on two branches: the root lookup, the
creation of the savepoint and `recordBranches` all return nil, `merge` fails at the
split of the first name with no pull and no difftool started, and the session file is
empty instead of holding the branch list. -/
theorem merge_full_disk :
    gitOutcome (sampleEnv [] true) ["rev-parse", "--show-toplevel"] freshState = none ∧
      gitOutcome (sampleEnv [] true) ["branch", "savepoint"]
        (afterRoot (sampleEnv [] true) freshState) = none ∧
      (recordBranches (sampleEnv [] true) ["origin/a", "origin/b"]
        (afterGit (afterRoot (sampleEnv [] true) freshState) ["branch", "savepoint"])).1
          = none ∧
      (merge (sampleEnv [] true) (mergeArgs ["origin/a", "origin/b"]) freshState).1 =
        some "Couldn't split origin/a in remote and branchname" ∧
      (merge (sampleEnv [] true) (mergeArgs ["origin/a", "origin/b"])
        freshState).2.started.map Event.argv =
          [["git", "rev-parse", "--show-toplevel"], ["git", "branch", "savepoint"]] ∧
      (merge (sampleEnv [] true) (mergeArgs ["origin/a", "origin/b"])
        freshState).2.files branchRecordPath = some "" ∧
      (merge (sampleEnv [] true) (mergeArgs ["origin/a", "origin/b"])
        freshState).2.files branchRecordPath ≠
          some (jsonArray ["origin/a", "origin/b"] ++ "\n") := by
  decide

/-- C6: when the root lookup succeeds and the creation of the savepoint returns an
error, `merge` returns that error at once: no file is created or changed, and the only
commands issued are the root lookup and `git branch savepoint`: no pull, no difftool. -/
theorem merge_aborts_on_savepoint_error (env : Env) (branches : List String) (s : State)
    (e : Error)
    (hroot : (chDirRepoRoot env s).1 = none)
    (hsave : (makeSavepoint env (chDirRepoRoot env s).2).1 = some e) :
    (merge env (mergeArgs branches) s).1 = some e ∧
      (merge env (mergeArgs branches) s).2.files = s.files ∧
      (merge env (mergeArgs branches) s).2.started.map Event.argv =
        s.started.map Event.argv ++
          [["git", "rev-parse", "--show-toplevel"], ["git", "branch", "savepoint"]] := by
  rw [merge_mergeArgs, orFatal_ok _ _ _ hroot, orFatal_err _ _ _ e hsave]
  refine ⟨rfl, ?_, ?_⟩
  · show (makeSavepoint env _).2.files = _
    rw [makeSavepoint_files, chDirRepoRoot_files]
  · show (makeSavepoint env _).2.started.map Event.argv = _
    rw [makeSavepoint_started, chDirRepoRoot_started]
    simp

/-- C6 in a checkout that holds a session file, where `git branch savepoint` fails. -/
theorem merge_aborts_on_savepoint_error_witness :
    (merge (sampleEnv [["git", "branch", "savepoint"]] false) (mergeArgs ["origin/b"])
        sessionState).1 = some "exit status 1" ∧
      (merge (sampleEnv [["git", "branch", "savepoint"]] false) (mergeArgs ["origin/b"])
        sessionState).2.files = sessionState.files ∧
      (merge (sampleEnv [["git", "branch", "savepoint"]] false) (mergeArgs ["origin/b"])
        sessionState).2.started.map Event.argv = sessionState.started.map Event.argv ++
          [["git", "rev-parse", "--show-toplevel"], ["git", "branch", "savepoint"]] :=
  merge_aborts_on_savepoint_error (sampleEnv [["git", "branch", "savepoint"]] false)
    ["origin/b"] sessionState "exit status 1" (by decide) (by decide)

/-- C9, in a fresh checkout whose disk is full: `os.Create` succeeds, the write of the
encoder fails and its error is dropped, so `recordBranches` returns nil while the
session file is empty instead of holding the JSON array of the branch list. -/
theorem recordBranches_drops_write_error :
    (recordBranches (sampleEnv [] true) ["origin/a"] freshState).1 = none ∧
      (Encode (sampleEnv [] true) branchRecordPath ["origin/a"]
        (osCreate (sampleEnv [] true) branchRecordPath freshState).2).1 =
          some "write: no space left on device" ∧
      (recordBranches (sampleEnv [] true) ["origin/a"] freshState).2.files
        branchRecordPath = some "" ∧
      (recordBranches (sampleEnv [] true) ["origin/a"] freshState).2.files
        branchRecordPath ≠ some (jsonArray ["origin/a"] ++ "\n") := by
  decide

end Mergetron
